import Mathlib

/-!
Verification of the native-function bridge in
`src/language/vm/vm-runtime/vm-runtime-types/src/native_functions/primitive_helpers.rs`.

The visible fragment defines three native functions
(`native_bytearray_concat`, `native_address_to_bytes`, `native_u64_to_bytes`)
over an argument queue (`VecDeque<Value>`).  The types `Value`, `ByteArray`,
`AccountAddress`, `VMStatus`, `StatusCode`, `NativeReturnStatus` and the
`pop_arg!` macro are declared elsewhere in the repository; those parts are
modelled from the specification (see the doc comments below).  Byte sequences
are lists of naturals (each byte a value `< 256` produced by `% 256` where the
code computes one); the argument queue is a list whose head is the queue's
front, so `pop_back` removes the last element, as `VecDeque::pop_back` does.
-/

/-- Modelled from the spec: `libra_types::account_address::AccountAddress` is
an account address held as a canonical fixed-width (32-byte) byte array; only
its byte representation is observable through `to_vec`. -/
structure AccountAddress where
  bytes : List Nat
  len_fixed : bytes.length = 32

/-- `AccountAddress::to_vec`: the canonical byte representation. -/
def AccountAddress.to_vec (a : AccountAddress) : List Nat :=
  a.bytes

/-- Modelled from the spec: the VM's tagged runtime `Value`
(`crate::value::Value`, outside the fragment), restricted to the variants the
three natives exchange: byte sequences (`ByteArray` payloads, here lists of
bytes), account addresses, and 64-bit unsigned integers. -/
inductive Value where
  | byte_array (bytes : List Nat)
  | address (addr : AccountAddress)
  | u64 (n : Nat)

/-- Tag test: is this value a byte sequence? -/
def Value.isByteArray : Value → Bool
  | .byte_array _ => true
  | _ => false

/-- Tag test: is this value an account address? -/
def Value.isAddress : Value → Bool
  | .address _ => true
  | _ => false

/-- Tag test: is this value a 64-bit unsigned integer? -/
def Value.isU64 : Value → Bool
  | .u64 _ => true
  | _ => false

/-- The human-readable name of a value's tag, used in extractor diagnostics. -/
def Value.tagName : Value → String
  | .byte_array _ => "ByteArray"
  | .address _ => "AccountAddress"
  | .u64 _ => "U64"

/-- Modelled from the spec: the fragment of `vm_error::StatusCode` this code
uses — the unreachable / internal-error class of fault codes. -/
inductive StatusCode where
  | UNREACHABLE
deriving DecidableEq

/-- Modelled from the spec: `vm_error::VMStatus`, a structured fault code plus
an optional human-readable diagnostic message. -/
structure VMStatus where
  major_status : StatusCode
  message : Option String

/-- `VMStatus::new`: a status with the given code and no message. -/
def VMStatus.new (code : StatusCode) : VMStatus :=
  ⟨code, none⟩

/-- `VMStatus::with_message`: attach a diagnostic message. -/
def VMStatus.with_message (s : VMStatus) (msg : String) : VMStatus :=
  { s with message := some msg }

/-- Modelled from the spec: `NativeReturnStatus` (declared in `dispatch.rs`,
outside the fragment), the three-way native call result — metered success,
recoverable conversion failure (reserved; not produced by these natives), and
invariant violation. -/
inductive NativeReturnStatus where
  | Success (cost : Nat) (return_values : List Value)
  | ConversionFailure (status : VMStatus)
  | InvariantError (status : VMStatus)

/-- `VecDeque::pop_back` on the argument queue: remove and return the
most-recently-pushed element (the list's last element). -/
def pop_back : List Value → Option (Value × List Value)
  | [] => none
  | [v] => some (v, [])
  | v :: w :: rest =>
    match pop_back (w :: rest) with
    | some (x, rest2) => some (x, v :: rest2)
    | none => none

/-- Modelled from the spec: the `pop_arg!` Typed Argument Extractor at type
`ByteArray` — pop from the tail, assert the tag; on mismatch or on empty-queue
underflow abort the native call with an unreachable-class invariant violation
whose diagnostic names the expected and the actual shape. -/
def pop_arg_bytearray (q : List Value) : Except VMStatus (List Nat × List Value) :=
  match pop_back q with
  | none =>
    .error ((VMStatus.new .UNREACHABLE).with_message
      "pop from empty argument queue expected ByteArray")
  | some (Value.byte_array b, rest) => .ok (b, rest)
  | some (v, _) =>
    .error ((VMStatus.new .UNREACHABLE).with_message
      ("unexpected argument type expected ByteArray found " ++ v.tagName))

/-- Modelled from the spec: the `pop_arg!` Typed Argument Extractor at type
`AccountAddress`; same fail-fast contract as `pop_arg_bytearray`. -/
def pop_arg_address (q : List Value) : Except VMStatus (AccountAddress × List Value) :=
  match pop_back q with
  | none =>
    .error ((VMStatus.new .UNREACHABLE).with_message
      "pop from empty argument queue expected AccountAddress")
  | some (Value.address a, rest) => .ok (a, rest)
  | some (v, _) =>
    .error ((VMStatus.new .UNREACHABLE).with_message
      ("unexpected argument type expected AccountAddress found " ++ v.tagName))

/-- Modelled from the spec: the `pop_arg!` Typed Argument Extractor at type
`u64`; same fail-fast contract as `pop_arg_bytearray`. -/
def pop_arg_u64 (q : List Value) : Except VMStatus (Nat × List Value) :=
  match pop_back q with
  | none =>
    .error ((VMStatus.new .UNREACHABLE).with_message
      "pop from empty argument queue expected U64")
  | some (Value.u64 n, rest) => .ok (n, rest)
  | some (v, _) =>
    .error ((VMStatus.new .UNREACHABLE).with_message
      ("unexpected argument type expected U64 found " ++ v.tagName))

/-- `native_bytearray_concat`: arity check, pop second then first byte
sequence, return first's bytes followed by second's, cost = result length. -/
def native_bytearray_concat (arguments : List Value) : NativeReturnStatus :=
  if arguments.length ≠ 2 then
    let msg := "wrong number of arguments for bytearray_concat expected 2 found "
      ++ toString arguments.length
    .InvariantError ((VMStatus.new .UNREACHABLE).with_message msg)
  else
    match pop_arg_bytearray arguments with
    | .error s => .InvariantError s
    | .ok (arg2, rest) =>
      match pop_arg_bytearray rest with
      | .error s => .InvariantError s
      | .ok (arg1, _) =>
        let return_val := arg1 ++ arg2
        let cost := return_val.length
        .Success cost [Value.byte_array return_val]

/-- `native_address_to_bytes`: arity check, pop one address, return its
canonical byte representation, cost = its length. -/
def native_address_to_bytes (arguments : List Value) : NativeReturnStatus :=
  if arguments.length ≠ 1 then
    let msg := "wrong number of arguments for address_to_bytes expected 1 found "
      ++ toString arguments.length
    .InvariantError ((VMStatus.new .UNREACHABLE).with_message msg)
  else
    match pop_arg_address arguments with
    | .error s => .InvariantError s
    | .ok (arg, _) =>
      let return_val := arg.to_vec
      let cost := return_val.length
      .Success cost [Value.byte_array return_val]

/-- `u64::to_le_bytes`: the little-endian 8-byte encoding, byte `i` being
`n / 256 ^ i % 256`. -/
def u64_to_le_bytes (n : Nat) : List Nat :=
  (List.range 8).map (fun i => n / 256 ^ i % 256)

/-- `native_u64_to_bytes`: arity check, pop one 64-bit unsigned integer,
return its little-endian 8-byte encoding, cost = its length (8). -/
def native_u64_to_bytes (arguments : List Value) : NativeReturnStatus :=
  if arguments.length ≠ 1 then
    let msg := "wrong number of arguments for u64_to_bytes expected 1 found "
      ++ toString arguments.length
    .InvariantError ((VMStatus.new .UNREACHABLE).with_message msg)
  else
    match pop_arg_u64 arguments with
    | .error s => .InvariantError s
    | .ok (arg, _) =>
      let return_val := u64_to_le_bytes arg
      let cost := return_val.length
      .Success cost [Value.byte_array return_val]

/-- Little-endian decoding, inverse of `u64_to_le_bytes` on 64-bit values;
used to state that the encoding really is the little-endian one. -/
def le_decode : List Nat → Nat
  | [] => 0
  | b :: rest => b + 256 * le_decode rest

/-- C1: for all byte sequences `A` and `B`, `native_bytearray_concat [A, B]`
returns `Success` with the single return value `A ++ B` (first-argument bytes
precede second-argument bytes although the second argument is popped first)
and cost `A.length + B.length`. -/
theorem bytearray_concat_correct (A B : List Nat) :
    native_bytearray_concat [Value.byte_array A, Value.byte_array B] =
      .Success (A.length + B.length) [Value.byte_array (A ++ B)] := by
  simp [native_bytearray_concat, pop_arg_bytearray, pop_back]

/-- Helper: on any queue of the wrong length, `native_bytearray_concat`
returns exactly the arity invariant violation determined by the length. -/
lemma concat_arity (q : List Value) (h : q.length ≠ 2) :
    native_bytearray_concat q =
      .InvariantError ((VMStatus.new .UNREACHABLE).with_message
        ("wrong number of arguments for bytearray_concat expected 2 found "
          ++ toString q.length)) := by
  simp [native_bytearray_concat, h]

/-- Helper: arity violation for `native_address_to_bytes`. -/
lemma addr_arity (q : List Value) (h : q.length ≠ 1) :
    native_address_to_bytes q =
      .InvariantError ((VMStatus.new .UNREACHABLE).with_message
        ("wrong number of arguments for address_to_bytes expected 1 found "
          ++ toString q.length)) := by
  simp [native_address_to_bytes, h]

/-- Helper: arity violation for `native_u64_to_bytes`. -/
lemma u64_arity (q : List Value) (h : q.length ≠ 1) :
    native_u64_to_bytes q =
      .InvariantError ((VMStatus.new .UNREACHABLE).with_message
        ("wrong number of arguments for u64_to_bytes expected 1 found "
          ++ toString q.length)) := by
  simp [native_u64_to_bytes, h]

/-- Helper: complete characterization of `native_bytearray_concat` — every
call either aborts with an unreachable-class invariant violation, or the queue
was exactly two byte sequences and the call succeeds with their
concatenation. -/
lemma concat_spec (q : List Value) :
    (∃ s, native_bytearray_concat q = .InvariantError s ∧
      s.major_status = .UNREACHABLE) ∨
    (∃ A B, q = [Value.byte_array A, Value.byte_array B] ∧
      native_bytearray_concat q =
        .Success (A.length + B.length) [Value.byte_array (A ++ B)]) := by
  match q with
  | [] => exact Or.inl ⟨_, concat_arity _ (by simp), rfl⟩
  | [a] => exact Or.inl ⟨_, concat_arity _ (by simp), rfl⟩
  | a :: b :: c :: t => exact Or.inl ⟨_, concat_arity _ (by simp), rfl⟩
  | [Value.byte_array A, Value.byte_array B] =>
    exact Or.inr ⟨A, B, rfl, by
      simp [native_bytearray_concat, pop_arg_bytearray, pop_back]⟩
  | [Value.byte_array A, Value.address a0] => exact Or.inl ⟨_, rfl, rfl⟩
  | [Value.byte_array A, Value.u64 n] => exact Or.inl ⟨_, rfl, rfl⟩
  | [Value.address a0, Value.byte_array B] => exact Or.inl ⟨_, rfl, rfl⟩
  | [Value.address a0, Value.address a1] => exact Or.inl ⟨_, rfl, rfl⟩
  | [Value.address a0, Value.u64 n] => exact Or.inl ⟨_, rfl, rfl⟩
  | [Value.u64 n, Value.byte_array B] => exact Or.inl ⟨_, rfl, rfl⟩
  | [Value.u64 n, Value.address a1] => exact Or.inl ⟨_, rfl, rfl⟩
  | [Value.u64 n, Value.u64 m] => exact Or.inl ⟨_, rfl, rfl⟩

/-- Helper: complete characterization of `native_address_to_bytes`. -/
lemma addr_spec (q : List Value) :
    (∃ s, native_address_to_bytes q = .InvariantError s ∧
      s.major_status = .UNREACHABLE) ∨
    (∃ a, q = [Value.address a] ∧
      native_address_to_bytes q =
        .Success a.to_vec.length [Value.byte_array a.to_vec]) := by
  match q with
  | [] => exact Or.inl ⟨_, addr_arity _ (by simp), rfl⟩
  | a :: b :: t => exact Or.inl ⟨_, addr_arity _ (by simp), rfl⟩
  | [Value.address a0] => exact Or.inr ⟨a0, rfl, rfl⟩
  | [Value.byte_array A] => exact Or.inl ⟨_, rfl, rfl⟩
  | [Value.u64 n] => exact Or.inl ⟨_, rfl, rfl⟩

/-- Helper: the little-endian encoding is 8 bytes long. -/
lemma u64_le_len (n : Nat) : (u64_to_le_bytes n).length = 8 := by
  simp [u64_to_le_bytes]

/-- Helper: complete characterization of `native_u64_to_bytes`. -/
lemma u64_spec (q : List Value) :
    (∃ s, native_u64_to_bytes q = .InvariantError s ∧
      s.major_status = .UNREACHABLE) ∨
    (∃ n, q = [Value.u64 n] ∧
      native_u64_to_bytes q =
        .Success 8 [Value.byte_array (u64_to_le_bytes n)]) := by
  match q with
  | [] => exact Or.inl ⟨_, u64_arity _ (by simp), rfl⟩
  | a :: b :: t => exact Or.inl ⟨_, u64_arity _ (by simp), rfl⟩
  | [Value.u64 n] =>
    exact Or.inr ⟨n, rfl, by
      simp [native_u64_to_bytes, pop_arg_u64, pop_back, u64_le_len]⟩
  | [Value.byte_array A] => exact Or.inl ⟨_, rfl, rfl⟩
  | [Value.address a0] => exact Or.inl ⟨_, rfl, rfl⟩

/-- C2: for every argument queue whose length differs from the declared arity
(2 for `native_bytearray_concat`, 1 for `native_address_to_bytes`, 1 for
`native_u64_to_bytes`), the function returns an invariant violation whose
diagnostic message is exactly "wrong number of arguments for NAME expected N
found M" with M the queue's actual length. -/
theorem arity_violation_messages (q : List Value) :
    (q.length ≠ 2 → native_bytearray_concat q =
      .InvariantError ((VMStatus.new .UNREACHABLE).with_message
        ("wrong number of arguments for bytearray_concat expected 2 found "
          ++ toString q.length))) ∧
    (q.length ≠ 1 → native_address_to_bytes q =
      .InvariantError ((VMStatus.new .UNREACHABLE).with_message
        ("wrong number of arguments for address_to_bytes expected 1 found "
          ++ toString q.length))) ∧
    (q.length ≠ 1 → native_u64_to_bytes q =
      .InvariantError ((VMStatus.new .UNREACHABLE).with_message
        ("wrong number of arguments for u64_to_bytes expected 1 found "
          ++ toString q.length))) :=
  ⟨concat_arity q, addr_arity q, u64_arity q⟩

/-- Witness for C2 at the empty queue. -/
theorem arity_violation_messages_witness :
    ([] : List Value).length ≠ 2 ∧ ([] : List Value).length ≠ 1 ∧
    native_bytearray_concat [] =
      .InvariantError ((VMStatus.new .UNREACHABLE).with_message
        "wrong number of arguments for bytearray_concat expected 2 found 0") ∧
    native_address_to_bytes [] =
      .InvariantError ((VMStatus.new .UNREACHABLE).with_message
        "wrong number of arguments for address_to_bytes expected 1 found 0") ∧
    native_u64_to_bytes [] =
      .InvariantError ((VMStatus.new .UNREACHABLE).with_message
        "wrong number of arguments for u64_to_bytes expected 1 found 0") :=
  ⟨by decide, by decide,
   (arity_violation_messages []).1 (by decide),
   (arity_violation_messages []).2.1 (by decide),
   (arity_violation_messages []).2.2 (by decide)⟩

/-- C3: for every 64-bit unsigned integer `n`, `native_u64_to_bytes [n]`
succeeds with the little-endian 8-byte encoding of `n` as its single return
value and cost 8; the encoding has 8 bytes and decoding it little-endian
recovers `n`. -/
theorem u64_to_bytes_correct (n : Nat) (h : n < 2 ^ 64) :
    native_u64_to_bytes [Value.u64 n] =
      .Success 8 [Value.byte_array (u64_to_le_bytes n)] ∧
    (u64_to_le_bytes n).length = 8 ∧
    le_decode (u64_to_le_bytes n) = n := by
  refine ⟨?_, u64_le_len n, ?_⟩
  · simp [native_u64_to_bytes, pop_arg_u64, pop_back, u64_le_len]
  · simp only [u64_to_le_bytes, List.range_succ, List.range_zero,
      List.map_append, List.map_cons, List.map_nil, List.nil_append,
      List.cons_append, List.append_nil, le_decode]
    norm_num
    omega

/-- Witness for C3 at `n = 3`. -/
theorem u64_to_bytes_correct_witness :
    (3 : Nat) < 2 ^ 64 ∧
    (native_u64_to_bytes [Value.u64 3] =
        .Success 8 [Value.byte_array (u64_to_le_bytes 3)] ∧
      (u64_to_le_bytes 3).length = 8 ∧
      le_decode (u64_to_le_bytes 3) = 3) :=
  ⟨by norm_num, u64_to_bytes_correct 3 (by norm_num)⟩

/-- C4: for every account address `a`, `native_address_to_bytes [a]` succeeds
with `a`'s canonical fixed-width (32-byte) representation as its single return
value and cost equal to that representation's length. -/
theorem address_to_bytes_correct (a : AccountAddress) :
    native_address_to_bytes [Value.address a] =
      .Success a.to_vec.length [Value.byte_array a.to_vec] ∧
    a.to_vec.length = 32 :=
  ⟨rfl, a.len_fixed⟩

/-- C5: on a queue of the declared arity in which a popped value's tag differs
from the expected type, each native returns an invariant violation whose fault
code is of the unreachable/internal-error class — never a success (so never a
silent coercion or default value), and the Lean functions are total (no
panic). -/
theorem tag_mismatch_invariant_violation (a b v : Value) :
    ((a.isByteArray = false ∨ b.isByteArray = false) →
      ∃ s, native_bytearray_concat [a, b] = .InvariantError s ∧
        s.major_status = .UNREACHABLE) ∧
    (v.isAddress = false →
      ∃ s, native_address_to_bytes [v] = .InvariantError s ∧
        s.major_status = .UNREACHABLE) ∧
    (v.isU64 = false →
      ∃ s, native_u64_to_bytes [v] = .InvariantError s ∧
        s.major_status = .UNREACHABLE) := by
  refine ⟨?_, ?_, ?_⟩
  · intro h
    rcases concat_spec [a, b] with hs | ⟨A, B, heq, -⟩
    · exact hs
    · simp only [List.cons.injEq, and_true] at heq
      obtain ⟨h1, h2⟩ := heq
      subst h1; subst h2
      rcases h with h | h <;> simp [Value.isByteArray] at h
  · intro h
    rcases addr_spec [v] with hs | ⟨a0, heq, -⟩
    · exact hs
    · simp only [List.cons.injEq, and_true] at heq
      subst heq
      simp [Value.isAddress] at h
  · intro h
    rcases u64_spec [v] with hs | ⟨n, heq, -⟩
    · exact hs
    · simp only [List.cons.injEq, and_true] at heq
      subst heq
      simp [Value.isU64] at h

/-- Witness for C5: an integer where a byte sequence is expected, and a byte
sequence where an address or an integer is expected. -/
theorem tag_mismatch_invariant_violation_witness :
    ((Value.u64 0).isByteArray = false ∨
      (Value.byte_array []).isByteArray = false) ∧
    (∃ s, native_bytearray_concat [Value.u64 0, Value.byte_array []] =
      .InvariantError s ∧ s.major_status = .UNREACHABLE) ∧
    ((Value.byte_array []).isAddress = false ∧
      ∃ s, native_address_to_bytes [Value.byte_array []] =
        .InvariantError s ∧ s.major_status = .UNREACHABLE) ∧
    ((Value.byte_array []).isU64 = false ∧
      ∃ s, native_u64_to_bytes [Value.byte_array []] =
        .InvariantError s ∧ s.major_status = .UNREACHABLE) :=
  ⟨Or.inl rfl,
   (tag_mismatch_invariant_violation (Value.u64 0) (Value.byte_array [])
     (Value.byte_array [])).1 (Or.inl rfl),
   ⟨rfl, (tag_mismatch_invariant_violation (Value.u64 0) (Value.byte_array [])
     (Value.byte_array [])).2.1 rfl⟩,
   ⟨rfl, (tag_mismatch_invariant_violation (Value.u64 0) (Value.byte_array [])
     (Value.byte_array [])).2.2 rfl⟩⟩

/-- C6: each native is a deterministic pure function of its argument queue —
two calls on structurally equal queues return identical results (values and
cost). -/
theorem native_determinism (q₁ q₂ : List Value) (h : q₁ = q₂) :
    native_bytearray_concat q₁ = native_bytearray_concat q₂ ∧
    native_address_to_bytes q₁ = native_address_to_bytes q₂ ∧
    native_u64_to_bytes q₁ = native_u64_to_bytes q₂ := by
  subst h
  exact ⟨rfl, rfl, rfl⟩

/-- Witness for C6 at a one-element queue. -/
theorem native_determinism_witness :
    [Value.u64 7] = [Value.u64 7] ∧
    (native_bytearray_concat [Value.u64 7] =
        native_bytearray_concat [Value.u64 7] ∧
      native_address_to_bytes [Value.u64 7] =
        native_address_to_bytes [Value.u64 7] ∧
      native_u64_to_bytes [Value.u64 7] =
        native_u64_to_bytes [Value.u64 7]) :=
  ⟨rfl, native_determinism [Value.u64 7] [Value.u64 7] rfl⟩

/-- C7: the arity check precedes all argument extraction — on a wrong-length
queue the result is the arity invariant violation determined solely by the
queue's length (any two wrong-length queues of equal length, whatever their
element values or tags, give the same result, and that result is the arity
message, never a type-mismatch diagnostic). -/
theorem arity_check_precedes_extraction (q q' : List Value)
    (hlen : q.length = q'.length) :
    (q.length ≠ 2 →
      native_bytearray_concat q = native_bytearray_concat q' ∧
      native_bytearray_concat q =
        .InvariantError ((VMStatus.new .UNREACHABLE).with_message
          ("wrong number of arguments for bytearray_concat expected 2 found "
            ++ toString q.length))) ∧
    (q.length ≠ 1 →
      (native_address_to_bytes q = native_address_to_bytes q' ∧
        native_address_to_bytes q =
          .InvariantError ((VMStatus.new .UNREACHABLE).with_message
            ("wrong number of arguments for address_to_bytes expected 1 found "
              ++ toString q.length))) ∧
      (native_u64_to_bytes q = native_u64_to_bytes q' ∧
        native_u64_to_bytes q =
          .InvariantError ((VMStatus.new .UNREACHABLE).with_message
            ("wrong number of arguments for u64_to_bytes expected 1 found "
              ++ toString q.length)))) := by
  constructor
  · intro h
    have h' : q'.length ≠ 2 := hlen ▸ h
    refine ⟨?_, concat_arity q h⟩
    rw [concat_arity q h, concat_arity q' h', hlen]
  · intro h
    have h' : q'.length ≠ 1 := hlen ▸ h
    refine ⟨⟨?_, addr_arity q h⟩, ⟨?_, u64_arity q h⟩⟩
    · rw [addr_arity q h, addr_arity q' h', hlen]
    · rw [u64_arity q h, u64_arity q' h', hlen]

/-- Witness for C7: a length-1 queue holding a wrongly-typed value still gets
the concat arity message, identical to another length-1 queue; the empty queue
gets the arity messages of the two unary natives. -/
theorem arity_check_precedes_extraction_witness :
    ([Value.u64 0] : List Value).length = [Value.byte_array []].length ∧
    ([Value.u64 0] : List Value).length ≠ 2 ∧
    (native_bytearray_concat [Value.u64 0] =
        native_bytearray_concat [Value.byte_array []] ∧
      native_bytearray_concat [Value.u64 0] =
        .InvariantError ((VMStatus.new .UNREACHABLE).with_message
          ("wrong number of arguments for bytearray_concat expected 2 found "
            ++ toString ([Value.u64 0] : List Value).length))) ∧
    ([] : List Value).length ≠ 1 ∧
    ((native_address_to_bytes [] = native_address_to_bytes ([] : List Value) ∧
        native_address_to_bytes [] =
          .InvariantError ((VMStatus.new .UNREACHABLE).with_message
            ("wrong number of arguments for address_to_bytes expected 1 found "
              ++ toString ([] : List Value).length))) ∧
      (native_u64_to_bytes [] = native_u64_to_bytes ([] : List Value) ∧
        native_u64_to_bytes [] =
          .InvariantError ((VMStatus.new .UNREACHABLE).with_message
            ("wrong number of arguments for u64_to_bytes expected 1 found "
              ++ toString ([] : List Value).length)))) :=
  ⟨rfl, by decide,
   (arity_check_precedes_extraction [Value.u64 0] [Value.byte_array []]
     rfl).1 (by decide),
   by decide,
   (arity_check_precedes_extraction [] [] rfl).2 (by decide)⟩

/-- C8: none of the three natives ever produces the recoverable
conversion-failure variant — on every queue the result is `Success` or
`InvariantError`, never `ConversionFailure`. -/
theorem no_conversion_failure (q : List Value) (s : VMStatus) :
    native_bytearray_concat q ≠ .ConversionFailure s ∧
    native_address_to_bytes q ≠ .ConversionFailure s ∧
    native_u64_to_bytes q ≠ .ConversionFailure s := by
  refine ⟨?_, ?_, ?_⟩
  · rcases concat_spec q with ⟨t, ht, -⟩ | ⟨A, B, -, ht⟩ <;> simp [ht]
  · rcases addr_spec q with ⟨t, ht, -⟩ | ⟨a0, -, ht⟩ <;> simp [ht]
  · rcases u64_spec q with ⟨t, ht, -⟩ | ⟨n, -, ht⟩ <;> simp [ht]

/-- C9: every successful result of any of the three natives carries exactly
one return value, and that value is a byte-array `Value` (in particular
`native_u64_to_bytes` re-boxes the integer as a byte array). -/
theorem success_single_bytearray_value (q : List Value) (c : Nat)
    (vs : List Value) :
    (native_bytearray_concat q = .Success c vs →
      ∃ b, vs = [Value.byte_array b]) ∧
    (native_address_to_bytes q = .Success c vs →
      ∃ b, vs = [Value.byte_array b]) ∧
    (native_u64_to_bytes q = .Success c vs →
      ∃ b, vs = [Value.byte_array b]) := by
  refine ⟨?_, ?_, ?_⟩ <;> intro h
  · rcases concat_spec q with ⟨t, ht, -⟩ | ⟨A, B, -, ht⟩
    · rw [ht] at h; exact absurd h (by simp)
    · rw [ht] at h
      injection h with h1 h2
      exact ⟨A ++ B, h2.symm⟩
  · rcases addr_spec q with ⟨t, ht, -⟩ | ⟨a0, -, ht⟩
    · rw [ht] at h; exact absurd h (by simp)
    · rw [ht] at h
      injection h with h1 h2
      exact ⟨a0.to_vec, h2.symm⟩
  · rcases u64_spec q with ⟨t, ht, -⟩ | ⟨n, -, ht⟩
    · rw [ht] at h; exact absurd h (by simp)
    · rw [ht] at h
      injection h with h1 h2
      exact ⟨u64_to_le_bytes n, h2.symm⟩

/-- Witness for C9 at a successful concat call. -/
theorem success_single_bytearray_value_witness :
    native_bytearray_concat [Value.byte_array [1], Value.byte_array [2]] =
      .Success 2 [Value.byte_array [1, 2]] ∧
    (∃ b, [Value.byte_array ([1, 2] : List Nat)] = [Value.byte_array b]) :=
  ⟨rfl,
   (success_single_bytearray_value
     [Value.byte_array [1], Value.byte_array [2]] 2
     [Value.byte_array [1, 2]]).1 rfl⟩

/-- C10: on every successful call of any of the three natives, the reported
cost equals the byte length of the single returned byte array. -/
theorem cost_equals_output_length (q : List Value) (c : Nat)
    (vs : List Value) :
    (native_bytearray_concat q = .Success c vs →
      ∃ b, vs = [Value.byte_array b] ∧ c = b.length) ∧
    (native_address_to_bytes q = .Success c vs →
      ∃ b, vs = [Value.byte_array b] ∧ c = b.length) ∧
    (native_u64_to_bytes q = .Success c vs →
      ∃ b, vs = [Value.byte_array b] ∧ c = b.length) := by
  refine ⟨?_, ?_, ?_⟩ <;> intro h
  · rcases concat_spec q with ⟨t, ht, -⟩ | ⟨A, B, -, ht⟩
    · rw [ht] at h; exact absurd h (by simp)
    · rw [ht] at h
      injection h with h1 h2
      exact ⟨A ++ B, h2.symm, by rw [← h1]; simp⟩
  · rcases addr_spec q with ⟨t, ht, -⟩ | ⟨a0, -, ht⟩
    · rw [ht] at h; exact absurd h (by simp)
    · rw [ht] at h
      injection h with h1 h2
      exact ⟨a0.to_vec, h2.symm, h1.symm⟩
  · rcases u64_spec q with ⟨t, ht, -⟩ | ⟨n, -, ht⟩
    · rw [ht] at h; exact absurd h (by simp)
    · rw [ht] at h
      injection h with h1 h2
      exact ⟨u64_to_le_bytes n, h2.symm, by rw [← h1, u64_le_len]⟩

/-- Witness for C10 at a successful `native_u64_to_bytes` call. -/
theorem cost_equals_output_length_witness :
    native_u64_to_bytes [Value.u64 5] =
      .Success 8 [Value.byte_array (u64_to_le_bytes 5)] ∧
    (∃ b, [Value.byte_array (u64_to_le_bytes 5)] = [Value.byte_array b] ∧
      8 = b.length) :=
  ⟨by simp [native_u64_to_bytes, pop_arg_u64, pop_back, u64_le_len],
   (cost_equals_output_length [Value.u64 5] 8
     [Value.byte_array (u64_to_le_bytes 5)]).2.2
     (by simp [native_u64_to_bytes, pop_arg_u64, pop_back, u64_le_len])⟩
